import Mathlib

/-!
Verification development for the ITCReport tourism dashboard (tour.py).

The file gives a shallow embedding of the two cores of the program — the
data engine (load_gov_data) and the forecasting engine (generate_forecast) —
and proves the spec claims about them.  Dates are absolute month indices
(year * 12 + month-of-year - 1) paired with a day of month; tables are lists
of rows; pandas NaN entries are Option.none; a Python exception escaping a
function is Except.error.  The external statsmodels fit is a parameter of
generate_forecast; a concrete model of its documented behaviour (fitHW) is
used for witnesses.
-/

namespace ITCReport

/-- Calendar date: absolute month index (year * 12 + month-of-year - 1) and a
day of month.  The day is bounded so that dates pack injectively into Nat
keys. -/
structure Date where
  month : Nat
  day : Nat
  day_lt : day < 32

theorem Date.eq_iff (a b : Date) : a = b ↔ a.month = b.month ∧ a.day = b.day := by
  constructor
  · intro h; subst h; exact ⟨rfl, rfl⟩
  · obtain ⟨am, ad, ah⟩ := a
    obtain ⟨bm, bd, bh⟩ := b
    intro h
    simp only at h
    obtain ⟨h1, h2⟩ := h
    subst h1; subst h2; rfl

instance : DecidableEq Date := fun a b =>
  decidable_of_iff (a.month = b.month ∧ a.day = b.day) (Date.eq_iff a b).symm

/-- The year of a date, as in the pandas dt.year accessor. -/
def Date.year (d : Date) : Nat := d.month / 12

/-- The month-of-year of a date (1 to 12), as in the pandas dt.month accessor. -/
def Date.monthOfYear (d : Date) : Nat := d.month % 12 + 1

/-- Injective packing of a date into a Nat, ordered first by month then day. -/
def dateKey (d : Date) : Nat := 32 * d.month + d.day

/-- Inverse of dateKey. -/
def keyDate (k : Nat) : Date := ⟨k / 32, k % 32, Nat.mod_lt k (by omega)⟩

/-- The month-start date of an absolute month index (pandas MS frequency). -/
def monthStart (m : Nat) : Date := ⟨m, 1, by omega⟩

theorem keyDate_dateKey (d : Date) : keyDate (dateKey d) = d := by
  have hd := d.day_lt
  rw [Date.eq_iff]
  unfold keyDate dateKey
  dsimp only
  omega

theorem dateKey_inj {a b : Date} (h : dateKey a = dateKey b) : a = b := by
  have := keyDate_dateKey a
  have := keyDate_dateKey b
  rw [Date.eq_iff]
  have ha := a.day_lt
  have hb := b.day_lt
  unfold dateKey at h
  omega

theorem dateKey_monthStart (m : Nat) : dateKey (monthStart m) = 32 * m + 1 := rfl

theorem keyDate_eq_monthStart {k m : Nat} : keyDate k = monthStart m ↔ k = 32 * m + 1 := by
  rw [Date.eq_iff]
  unfold keyDate monthStart
  dsimp only
  omega

/-! Sorted unique keys, modelling the sorted unique group index produced by a
pandas groupby. -/

/-- Insert a key into a strictly sorted list, keeping it strictly sorted and
dropping the key if already present. -/
def insortKey (x : Nat) : List Nat → List Nat
  | [] => [x]
  | y :: ys => if x < y then x :: y :: ys else if x = y then y :: ys else y :: insortKey x ys

/-- Sorted list of the distinct keys of a list. -/
def sortedKeys (l : List Nat) : List Nat := l.foldr insortKey []

theorem mem_insortKey {a x : Nat} {l : List Nat} : a ∈ insortKey x l ↔ a = x ∨ a ∈ l := by
  induction l with
  | nil => simp [insortKey]
  | cons y ys ih =>
    unfold insortKey
    by_cases h1 : x < y
    · simp [h1]
    · by_cases h2 : x = y
      · subst h2
        rw [if_neg h1, if_pos rfl]
        simp only [List.mem_cons]
        tauto
      · simp only [if_neg h1, if_neg h2, List.mem_cons, ih]
        tauto

theorem sorted_insortKey {x : Nat} {l : List Nat} (h : l.Sorted (· < ·)) :
    (insortKey x l).Sorted (· < ·) := by
  induction l with
  | nil => simp [insortKey]
  | cons y ys ih =>
    rw [List.sorted_cons] at h
    obtain ⟨hy, hys⟩ := h
    unfold insortKey
    by_cases h1 : x < y
    · rw [if_pos h1, List.sorted_cons]
      refine ⟨?_, by rw [List.sorted_cons]; exact ⟨hy, hys⟩⟩
      intro b hb
      rcases List.mem_cons.mp hb with rfl | hb
      · exact h1
      · exact h1.trans (hy b hb)
    · by_cases h2 : x = y
      · rw [if_neg h1, if_pos h2, List.sorted_cons]
        exact ⟨hy, hys⟩
      · rw [if_neg h1, if_neg h2, List.sorted_cons]
        refine ⟨?_, ih hys⟩
        intro b hb
        rcases mem_insortKey.mp hb with rfl | hb
        · omega
        · exact hy b hb

theorem mem_sortedKeys {a : Nat} {l : List Nat} : a ∈ sortedKeys l ↔ a ∈ l := by
  induction l with
  | nil => simp [sortedKeys]
  | cons x xs ih =>
    unfold sortedKeys at ih ⊢
    simp only [List.foldr_cons, mem_insortKey, ih, List.mem_cons]

theorem sorted_sortedKeys (l : List Nat) : (sortedKeys l).Sorted (· < ·) := by
  induction l with
  | nil => simp [sortedKeys]
  | cons x xs ih =>
    unfold sortedKeys at ih ⊢
    exact sorted_insortKey ih

theorem nodup_sortedKeys (l : List Nat) : (sortedKeys l).Nodup :=
  (sorted_sortedKeys l).nodup

theorem sorted_head?_eq {l : List Nat} (hs : l.Sorted (· < ·)) {x : Nat} (hx : x ∈ l)
    (hmin : ∀ y ∈ l, x ≤ y) : l.head? = some x := by
  cases l with
  | nil => cases hx
  | cons a t =>
    rw [List.sorted_cons] at hs
    have hax : a ≤ x := by
      rcases List.mem_cons.mp hx with rfl | hx
      · exact le_refl x
      · exact le_of_lt (hs.1 x hx)
    have hxa : x ≤ a := hmin a (List.mem_cons_self a t)
    simp [List.head?, le_antisymm hax hxa]

theorem sorted_getLast?_eq {l : List Nat} (hs : l.Sorted (· < ·)) {x : Nat} (hx : x ∈ l)
    (hmax : ∀ y ∈ l, y ≤ x) : l.getLast? = some x := by
  induction l with
  | nil => cases hx
  | cons a t ih =>
    cases t with
    | nil =>
      rcases List.mem_cons.mp hx with rfl | hx
      · rfl
      · cases hx
    | cons b t2 =>
      rw [List.sorted_cons] at hs
      have hx2 : x ∈ b :: t2 := by
        rcases List.mem_cons.mp hx with rfl | hx
        · exfalso
          have hb : x < b := hs.1 b (List.mem_cons_self b t2)
          have : b ≤ x := hmax b (List.mem_cons.mpr (Or.inr (List.mem_cons_self b t2)))
          omega
        · exact hx
      have := ih hs.2 hx2 (fun y hy => hmax y (List.mem_cons.mpr (Or.inr hy)))
      rw [List.getLast?_cons_cons]
      exact this

/-! Static reference tables of tour.py. -/

/-- ISO-3 code mapper of tour.py (ISO_MAP). -/
def ISO_MAP : List (String × String) :=
  [("SGP", "Singapore"), ("IDN", "Indonesia"), ("CHN", "China"), ("THA", "Thailand"),
   ("BRN", "Brunei"), ("IND", "India"), ("KOR", "South Korea"), ("VNM", "Vietnam"),
   ("AUS", "Australia"), ("PHL", "Philippines"), ("GBR", "United Kingdom"),
   ("JPN", "Japan"), ("USA", "United States"), ("TWN", "Taiwan"), ("DEU", "Germany"),
   ("SAU", "Saudi Arabia"), ("NLD", "Netherlands"), ("FRA", "France"), ("RUS", "Russia")]

/-- Religion proxy table of tour.py (RELIGION_PROXY), decimal weights as rationals. -/
def RELIGION_PROXY : List (String × Rat) :=
  [("Indonesia", 87/100), ("Brunei", 81/100), ("Saudi Arabia", 1), ("Turkey", 99/100),
   ("Bangladesh", 90/100), ("Pakistan", 96/100), ("Egypt", 90/100), ("Iran", 99/100),
   ("India", 14/100), ("Singapore", 15/100), ("China", 2/100), ("Thailand", 5/100),
   ("United Kingdom", 6/100), ("Australia", 3/100), ("Philippines", 6/100)]

/-- Country display name: the map-then-fillna of line 42,
df.country.map(ISO_MAP).fillna(df.country). -/
def displayName (c : String) : String :=
  match ISO_MAP.find? (fun p => p.1 = c) with
  | some p => p.2
  | none => c

/-! Data engine (load_gov_data). -/

/-- Row of the fetched parquet table; the date field is none when the raw value
does not parse as a calendar date. -/
structure RawRow where
  date : Option Date
  country : String
  arrivals : Rat
deriving DecidableEq

/-- Row after date parsing and year derivation (lines 38-39). -/
structure DatedRow where
  date : Date
  year : Nat
  country : String
  arrivals : Rat
deriving DecidableEq

/-- Row of the cleaned table returned by load_gov_data: date, year, country,
Country_Name and arrivals columns. -/
structure CleanRow where
  date : Date
  year : Nat
  country : String
  countryName : String
  arrivals : Rat
deriving DecidableEq

/-- Vectorised pd.to_datetime plus year derivation: fails (raises) if any raw
date does not parse, otherwise annotates every row with its parsed date and
derived year. -/
def parseDates : List RawRow → Except String (List DatedRow)
  | [] => Except.ok []
  | r :: rs =>
    match r.date with
    | some d =>
      match parseDates rs with
      | Except.ok rest => Except.ok (⟨d, d.year, r.country, r.arrivals⟩ :: rest)
      | Except.error e => Except.error e
    | none => Except.error "unparseable date"

/-- Body of the try block of load_gov_data (lines 37-43): fetch, parse dates,
derive year, keep rows with year at least 2019, and derive Country_Name. -/
def loadBody (fetch : Except String (List RawRow)) : Except String (List CleanRow) :=
  Except.bind fetch (fun rows =>
    Except.bind (parseDates rows) (fun dated =>
      Except.ok ((dated.filter (fun r => 2019 ≤ r.year)).map
        (fun r => ⟨r.date, r.year, r.country, displayName r.country, r.arrivals⟩))))

/-- load_gov_data (lines 34-46): any exception inside the try block is caught,
reported through the st.error side channel (first component) and replaced by
an empty table. -/
def load_gov_data (fetch : Except String (List RawRow)) : List String × List CleanRow :=
  match loadBody fetch with
  | Except.ok t => ([], t)
  | Except.error e => (["Data Error: " ++ e], [])

/-! Forecasting engine (generate_forecast). -/

/-- Configuration record passed to the ExponentialSmoothing constructor and its
fit method (lines 61-67). -/
structure HWConfig where
  trend : String
  damped_trend : Bool
  seasonal : String
  seasonal_periods : Nat
  smoothing_level : Rat
  smoothing_trend : Rat
deriving DecidableEq

/-- The configuration tour.py uses: additive trend, damping, additive
seasonality, period 12, smoothing level 0.3 and smoothing trend 0.1. -/
def hwConfig : HWConfig :=
  { trend := "add", damped_trend := true, seasonal := "add",
    seasonal_periods := 12, smoothing_level := 3/10, smoothing_trend := 1/10 }

/-- A fitted model, reduced to its point-forecast function: the value it
predicts i steps after the end of the history. -/
abbrev Model : Type := Nat → Rat

/-- Sum of the values of the rows whose date has the given key (one pandas
groupby group). -/
def sumAt (df : List (Date × Rat)) (k : Nat) : Rat :=
  ((df.filter (fun p => dateKey p.1 = k)).map Prod.snd).sum

/-- The date keys of the rows of a table, in row order. -/
def keyList (df : List (Date × Rat)) : List Nat := df.map (fun p => dateKey p.1)

/-- df.groupby(date)[value].sum() of line 57: the distinct dates in ascending
order, each paired with the sum of the values observed at exactly that date. -/
def groupbySum (df : List (Date × Rat)) : List (Date × Rat) :=
  (sortedKeys (keyList df)).map (fun k => (keyDate k, sumAt df k))

/-- Consecutive absolute month indices from a to b inclusive (empty if b < a). -/
def monthRange (a b : Nat) : List Nat := List.range' a (b + 1 - a)

/-- Month-start grid spanned by the index of a series whose first index entry
is f and last is l, as produced by the pandas MS date_range: month starts not
before f and not after l. -/
def asfreqGrid (f l : Date) : List Nat :=
  monthRange (if f.day = 1 then f.month else f.month + 1) l.month

/-- asfreq(MS) of line 57: reindex a date-indexed series at the month-start
dates lying between its first and last index entry; a grid month whose
month-start date is absent from the index becomes a missing (NaN) entry. -/
def asfreqMS (s : List (Date × Rat)) : List (Nat × Option Rat) :=
  match s.head?, s.getLast? with
  | some f, some l =>
    (asfreqGrid f.1 l.1).map
      (fun m => (m, (s.find? (fun p => p.1 = monthStart m)).map Prod.snd))
  | _, _ => []

/-- monthly_data of line 57: group by date, sum the value column, reindex at
month-start frequency. -/
def monthly_data (df : List (Date × Rat)) : List (Nat × Option Rat) :=
  asfreqMS (groupbySum df)

/-- The hardcoded forecast horizon: December 2026 (line 73). -/
def horizonMonth : Nat := 2026 * 12 + 11

/-- target_date = Timestamp 2026-12-01 of line 73. -/
def target_date : Date := ⟨horizonMonth, 1, by omega⟩

/-- months_needed of line 74: (target.year - last.year) * 12 +
(target.month - last.month). -/
def months_needed (last : Date) : Int :=
  ((target_date.year : Int) - (last.year : Int)) * 12 +
    ((target_date.monthOfYear : Int) - (last.monthOfYear : Int))

/-- Modelled from the spec: the external statsmodels ExponentialSmoothing fit
called on lines 61-67, which is not part of this repository.  Per the spec and
the library documentation it raises on a series containing missing values and
on a series shorter than two full seasonal cycles, and otherwise returns a
fitted model.  The claims below depend only on this failure condition and on
the index of the forecast, never on the fitted point-forecast values, which
come from a numerical optimiser and are therefore modelled by the trivial
function. -/
def fitHW (cfg : HWConfig) (s : List (Nat × Option Rat)) : Except String Model :=
  if s.any (fun p => p.2.isNone) then Except.error "series contains missing values"
  else if s.length < 2 * cfg.seasonal_periods then
    Except.error "needs two full seasonal cycles"
  else Except.ok (fun _ => 0)

/-- Row of the history or forecast tables returned by generate_forecast:
month, value (none for a NaN cell) and the Type column (none when the Type
column is absent from the table). -/
structure OutRow where
  month : Nat
  value : Option Rat
  type : Option String
deriving DecidableEq

/-- Lines 70-91 of generate_forecast, after the model fit: read the last index
entry of the monthly series (monthly_data.index[-1], an IndexError — an
exception — on an empty index), compute months_needed to December 2026,
return the plain history with an empty forecast when months_needed is not
positive, and otherwise label the history rows Actual and pair the
months_needed projected values with the months directly following the last
observed month, labelled AI Forecast. -/
def project (model : Model) (monthly : List (Nat × Option Rat)) :
    Option Nat → Except String (List OutRow × List OutRow)
  | none => Except.error "index -1 is out of bounds"
  | some lastM =>
    if months_needed (monthStart lastM) ≤ 0 then
      Except.ok (monthly.map (fun p => ⟨p.1, p.2, none⟩), [])
    else
      Except.ok (monthly.map (fun p => ⟨p.1, p.2, some "Actual"⟩),
        ((List.range (months_needed (monthStart lastM)).toNat).map
          (fun i => (lastM + 1 + i, model i))).map
          (fun p => ⟨p.1, some p.2, some "AI Forecast"⟩))

/-- generate_forecast (lines 51-91), parametrised by the external fit routine.
Aggregates to a monthly series, fits the smoothing model with hwConfig, and
projects to the horizon.  An uncaught Python exception is an Except.error
result; note there is no exception handling anywhere in the function. -/
def generate_forecast (fit : HWConfig → List (Nat × Option Rat) → Except String Model)
    (df : List (Date × Rat)) : Except String (List OutRow × List OutRow) :=
  Except.bind (fit hwConfig (monthly_data df))
    (fun model => project model (monthly_data df) (((monthly_data df).map Prod.fst).getLast?))

/-! Derived segment estimation (lines 103-104 and 114-116). -/

/-- numpy astype(int): truncation toward zero, written with floors — the floor
for a nonnegative value and the negated floor of the negation otherwise. -/
def astypeInt (q : Rat) : Int := if 0 ≤ q then ⌊q⌋ else -⌊-q⌋

/-- Muslim_Ratio of line 103: look the Country_Name up in RELIGION_PROXY and
default missing entries to 0.05. -/
def muslim_ratio_main (countryName : String) : Rat :=
  match RELIGION_PROXY.find? (fun p => p.1 = countryName) with
  | some p => p.2
  | none => 5/100

/-- Muslim_Ratio of line 115: map the raw country code through ISO_MAP, then
through RELIGION_PROXY, and default missing entries (at either step) to
0.05. -/
def muslim_ratio_forecast (country : String) : Rat :=
  match ISO_MAP.find? (fun p => p.1 = country) with
  | some p => muslim_ratio_main p.2
  | none => 5/100

/-- Muslim_Est of line 104. -/
def muslim_est_main (arrivals : Rat) (countryName : String) : Int :=
  astypeInt (arrivals * muslim_ratio_main countryName)

/-- Muslim_Est of line 116. -/
def muslim_est_forecast (arrivals : Rat) (country : String) : Int :=
  astypeInt (arrivals * muslim_ratio_forecast country)

/-- Modelled from the spec: the segment estimate exactly as the claim words
it — arrivals times the weight found by looking the display name of the
country up in the segment-ratio map (default 0.05), truncated to an
integer.  Kept separate so it can be compared with the code paths above. -/
def specSegmentEst (arrivals : Rat) (country : String) : Int :=
  astypeInt (arrivals * muslim_ratio_main (displayName country))

/-- All observed months of a table (with multiplicity). -/
def observedMonths (df : List (Date × Rat)) : List Nat :=
  df.map (fun p => p.1.month)

/-! Lemmas about month ranges. -/

theorem mem_monthRange {m a b : Nat} : m ∈ monthRange a b ↔ a ≤ m ∧ m ≤ b := by
  unfold monthRange
  rw [List.mem_range'_1]
  omega

theorem nodup_monthRange (a b : Nat) : (monthRange a b).Nodup := by
  unfold monthRange
  exact List.nodup_range' _ _ _ (by norm_num)

theorem length_monthRange (a b : Nat) : (monthRange a b).length = b + 1 - a := by
  unfold monthRange
  simp [List.length_range']

theorem head?_monthRange {a b : Nat} (h : a ≤ b) : (monthRange a b).head? = some a := by
  unfold monthRange
  have h2 : b + 1 - a = (b - a) + 1 := by omega
  rw [h2, List.range'_succ]
  rfl

theorem getLast?_monthRange {a b : Nat} (h : a ≤ b) : (monthRange a b).getLast? = some b := by
  unfold monthRange
  have h2 : b + 1 - a = (b - a) + 1 := by omega
  rw [h2, List.range'_concat]
  have h3 : a + 1 * (b - a) = b := by omega
  rw [h3]
  simp

theorem monthRange_eq_map_range (a b : Nat) :
    monthRange a b = (List.range (b + 1 - a)).map (a + ·) := by
  unfold monthRange
  exact List.range'_eq_map_range _ _

/-! Lemmas about the key list and the sorted group index. -/

theorem mem_keyList {df : List (Date × Rat)} {k : Nat} :
    k ∈ keyList df ↔ ∃ p ∈ df, dateKey p.1 = k := by
  unfold keyList
  simp [List.mem_map]

theorem key_mem_iff_month_mem {df : List (Date × Rat)}
    (hday : ∀ p ∈ df, p.1.day = 1) {m : Nat} :
    32 * m + 1 ∈ keyList df ↔ m ∈ observedMonths df := by
  unfold keyList observedMonths
  simp only [List.mem_map]
  constructor
  · rintro ⟨p, hp, hk⟩
    refine ⟨p, hp, ?_⟩
    have := p.1.day_lt
    unfold dateKey at hk
    omega
  · rintro ⟨p, hp, hm⟩
    refine ⟨p, hp, ?_⟩
    have hd := hday p hp
    unfold dateKey
    omega

theorem key_bounds {df : List (Date × Rat)} {lo hi : Nat}
    (hday : ∀ p ∈ df, p.1.day = 1)
    (hbound : ∀ m ∈ observedMonths df, lo ≤ m ∧ m ≤ hi)
    {k : Nat} (hk : k ∈ keyList df) : 32 * lo + 1 ≤ k ∧ k ≤ 32 * hi + 1 := by
  obtain ⟨p, hp, rfl⟩ := mem_keyList.mp hk
  have hd := hday p hp
  have hb := hbound p.1.month (List.mem_map.mpr ⟨p, hp, rfl⟩)
  unfold dateKey
  omega

theorem sortedKeys_head? {df : List (Date × Rat)} {lo hi : Nat}
    (hday : ∀ p ∈ df, p.1.day = 1)
    (hlo : lo ∈ observedMonths df)
    (hbound : ∀ m ∈ observedMonths df, lo ≤ m ∧ m ≤ hi) :
    (sortedKeys (keyList df)).head? = some (32 * lo + 1) := by
  apply sorted_head?_eq (sorted_sortedKeys _)
  · rw [mem_sortedKeys]
    exact (key_mem_iff_month_mem hday).mpr hlo
  · intro y hy
    rw [mem_sortedKeys] at hy
    exact (key_bounds hday hbound hy).1

theorem sortedKeys_getLast? {df : List (Date × Rat)} {lo hi : Nat}
    (hday : ∀ p ∈ df, p.1.day = 1)
    (hhi : hi ∈ observedMonths df)
    (hbound : ∀ m ∈ observedMonths df, lo ≤ m ∧ m ≤ hi) :
    (sortedKeys (keyList df)).getLast? = some (32 * hi + 1) := by
  apply sorted_getLast?_eq (sorted_sortedKeys _)
  · rw [mem_sortedKeys]
    exact (key_mem_iff_month_mem hday).mpr hhi
  · intro y hy
    rw [mem_sortedKeys] at hy
    exact (key_bounds hday hbound hy).2

/-! Characterisation of the grouped series and of the monthly series. -/

theorem find?_decide_eq (c : Nat) (K : List Nat) :
    K.find? (fun k => decide (k = c)) = if c ∈ K then some c else none := by
  induction K with
  | nil => simp
  | cons k K ih =>
    by_cases h : k = c
    · subst h
      simp [List.find?_cons_of_pos]
    · have hne : ¬ c = k := fun hh => h hh.symm
      rw [List.find?_cons_of_neg _ (by simp [h]), ih]
      simp [List.mem_cons, hne]

theorem groupbySum_head? {df : List (Date × Rat)} {lo hi : Nat}
    (hday : ∀ p ∈ df, p.1.day = 1)
    (hlo : lo ∈ observedMonths df)
    (hbound : ∀ m ∈ observedMonths df, lo ≤ m ∧ m ≤ hi) :
    (groupbySum df).head? = some (monthStart lo, sumAt df (32 * lo + 1)) := by
  unfold groupbySum
  rw [List.head?_map, sortedKeys_head? hday hlo hbound]
  simp [keyDate_eq_monthStart.mpr rfl]

theorem groupbySum_getLast? {df : List (Date × Rat)} {lo hi : Nat}
    (hday : ∀ p ∈ df, p.1.day = 1)
    (hhi : hi ∈ observedMonths df)
    (hbound : ∀ m ∈ observedMonths df, lo ≤ m ∧ m ≤ hi) :
    (groupbySum df).getLast? = some (monthStart hi, sumAt df (32 * hi + 1)) := by
  unfold groupbySum
  rw [List.getLast?_map, sortedKeys_getLast? hday hhi hbound]
  simp [keyDate_eq_monthStart.mpr rfl]

theorem groupbySum_find? (df : List (Date × Rat)) (m : Nat) :
    (groupbySum df).find? (fun p => p.1 = monthStart m) =
      if 32 * m + 1 ∈ sortedKeys (keyList df) then
        some (monthStart m, sumAt df (32 * m + 1)) else none := by
  unfold groupbySum
  rw [List.find?_map]
  have hfun : ((fun p : Date × Rat => decide (p.1 = monthStart m)) ∘
      (fun k => (keyDate k, sumAt df k))) = fun k => decide (k = 32 * m + 1) := by
    funext k
    simp only [Function.comp]
    exact decide_eq_decide.mpr keyDate_eq_monthStart
  rw [hfun, find?_decide_eq]
  by_cases hc : 32 * m + 1 ∈ sortedKeys (keyList df)
  · simp [hc, keyDate_eq_monthStart.mpr rfl]
  · simp [hc]

theorem asfreqMS_eq_of_head_last {s : List (Date × Rat)} {f l : Date × Rat}
    (hf : s.head? = some f) (hl : s.getLast? = some l) :
    asfreqMS s = (asfreqGrid f.1 l.1).map
      (fun m => (m, (s.find? (fun p => p.1 = monthStart m)).map Prod.snd)) := by
  unfold asfreqMS
  rw [hf, hl]

/-- Shape of the monthly series over a month-normalised table: one entry per
grid month between the earliest and latest observed month, carrying the
grouped sum when the month is observed and a missing entry otherwise. -/
theorem monthly_data_eq {df : List (Date × Rat)} {lo hi : Nat}
    (hday : ∀ p ∈ df, p.1.day = 1)
    (hlo : lo ∈ observedMonths df) (hhi : hi ∈ observedMonths df)
    (hbound : ∀ m ∈ observedMonths df, lo ≤ m ∧ m ≤ hi) :
    monthly_data df = (monthRange lo hi).map
      (fun m => (m, if m ∈ observedMonths df then some (sumAt df (32 * m + 1)) else none)) := by
  unfold monthly_data
  rw [asfreqMS_eq_of_head_last (groupbySum_head? hday hlo hbound)
    (groupbySum_getLast? hday hhi hbound)]
  have hgrid : asfreqGrid (monthStart lo, sumAt df (32 * lo + 1)).1
      (monthStart hi, sumAt df (32 * hi + 1)).1 = monthRange lo hi := by
    unfold asfreqGrid monthStart
    simp
  rw [hgrid]
  apply List.map_congr_left
  intro m hm
  rw [groupbySum_find?]
  have hiff : (32 * m + 1 ∈ sortedKeys (keyList df)) ↔ m ∈ observedMonths df := by
    rw [mem_sortedKeys]
    exact key_mem_iff_month_mem hday
  by_cases hob : m ∈ observedMonths df
  · simp [hiff.mpr hob, hob]
  · have hnot : 32 * m + 1 ∉ sortedKeys (keyList df) := fun h => hob (hiff.mp h)
    simp [hnot, hob]

/-- Over a month-normalised table whose observed months fill the whole range
from lo to hi, the monthly series has no missing entries: one summed value per
grid month. -/
theorem monthly_data_eq_contig {df : List (Date × Rat)} {lo hi : Nat}
    (hday : ∀ p ∈ df, p.1.day = 1)
    (hlo : lo ∈ observedMonths df) (hhi : hi ∈ observedMonths df)
    (hbound : ∀ m ∈ observedMonths df, lo ≤ m ∧ m ≤ hi)
    (hcontig : ∀ m ∈ monthRange lo hi, m ∈ observedMonths df) :
    monthly_data df = (monthRange lo hi).map
      (fun m => (m, some (sumAt df (32 * m + 1)))) := by
  rw [monthly_data_eq hday hlo hhi hbound]
  apply List.map_congr_left
  intro m hm
  simp [hcontig m hm]

/-- The statsmodels fit succeeds on a complete monthly series with at least
two full seasonal cycles. -/
theorem fitHW_ok {df : List (Date × Rat)} {lo hi : Nat}
    (hday : ∀ p ∈ df, p.1.day = 1)
    (hlo : lo ∈ observedMonths df) (hhi : hi ∈ observedMonths df)
    (hbound : ∀ m ∈ observedMonths df, lo ≤ m ∧ m ≤ hi)
    (hcontig : ∀ m ∈ monthRange lo hi, m ∈ observedMonths df)
    (hlen : lo + 23 ≤ hi) :
    fitHW hwConfig (monthly_data df) = Except.ok (fun _ => 0) := by
  rw [monthly_data_eq_contig hday hlo hhi hbound hcontig]
  unfold fitHW
  have h1 : (((monthRange lo hi).map
      (fun m => ((m : Nat), some (sumAt df (32 * m + 1))))).any
        (fun p => p.2.isNone)) = false := by
    simp [List.any_map, Function.comp]
  have h2 : ¬ (((monthRange lo hi).map
      (fun m => ((m : Nat), some (sumAt df (32 * m + 1))))).length
        < 2 * hwConfig.seasonal_periods) := by
    simp only [List.length_map, length_monthRange]
    unfold hwConfig
    dsimp only
    omega
  rw [if_neg (by simp [h1]), if_neg h2]

/-- months_needed counts exactly the months separating a month start from the
December 2026 horizon. -/
theorem months_needed_monthStart (m : Nat) :
    months_needed (monthStart m) = (horizonMonth : Int) - (m : Int) := by
  unfold months_needed target_date Date.year Date.monthOfYear monthStart horizonMonth
  dsimp only
  omega

/-- The first index projection of the monthly series, over a contiguous
month-normalised table. -/
theorem monthly_data_fst {df : List (Date × Rat)} {lo hi : Nat}
    (hday : ∀ p ∈ df, p.1.day = 1)
    (hlo : lo ∈ observedMonths df) (hhi : hi ∈ observedMonths df)
    (hbound : ∀ m ∈ observedMonths df, lo ≤ m ∧ m ≤ hi)
    (hcontig : ∀ m ∈ monthRange lo hi, m ∈ observedMonths df) :
    (monthly_data df).map Prod.fst = monthRange lo hi := by
  rw [monthly_data_eq_contig hday hlo hhi hbound hcontig, List.map_map]
  exact List.map_id _

theorem except_bind_ok {α β : Type} (a : α) (f : α → Except String β) :
    Except.bind (Except.ok a) f = f a := rfl

/-- Behaviour of generate_forecast on the forecasting path: a cleaned table
with contiguous month-normalised history of at least 24 months ending before
December 2026. -/
theorem generate_forecast_pos {df : List (Date × Rat)} {lo hi : Nat}
    (hday : ∀ p ∈ df, p.1.day = 1)
    (hlo : lo ∈ observedMonths df) (hhi : hi ∈ observedMonths df)
    (hbound : ∀ m ∈ observedMonths df, lo ≤ m ∧ m ≤ hi)
    (hcontig : ∀ m ∈ monthRange lo hi, m ∈ observedMonths df)
    (hlen : lo + 23 ≤ hi) (hhor : hi < horizonMonth) :
    generate_forecast fitHW df = Except.ok
      ((monthRange lo hi).map (fun m => ⟨m, some (sumAt df (32 * m + 1)), some "Actual"⟩),
       (monthRange (hi + 1) horizonMonth).map
         (fun m => ⟨m, some 0, some "AI Forecast"⟩)) := by
  unfold generate_forecast
  rw [fitHW_ok hday hlo hhi hbound hcontig hlen, except_bind_ok]
  rw [monthly_data_fst hday hlo hhi hbound hcontig]
  rw [getLast?_monthRange (by omega)]
  simp only [project]
  rw [months_needed_monthStart]
  rw [if_neg (by omega)]
  rw [monthly_data_eq_contig hday hlo hhi hbound hcontig, List.map_map, List.map_map]
  have htn : ((horizonMonth : Int) - (hi : Int)).toNat = horizonMonth + 1 - (hi + 1) := by
    omega
  rw [htn, monthRange_eq_map_range (hi + 1) horizonMonth, List.map_map]
  rfl

/-- Behaviour of generate_forecast on the horizon-reached path: same
hypotheses, but the history already reaches December 2026. -/
theorem generate_forecast_nonpos {df : List (Date × Rat)} {lo hi : Nat}
    (hday : ∀ p ∈ df, p.1.day = 1)
    (hlo : lo ∈ observedMonths df) (hhi : hi ∈ observedMonths df)
    (hbound : ∀ m ∈ observedMonths df, lo ≤ m ∧ m ≤ hi)
    (hcontig : ∀ m ∈ monthRange lo hi, m ∈ observedMonths df)
    (hlen : lo + 23 ≤ hi) (hhor : horizonMonth ≤ hi) :
    generate_forecast fitHW df = Except.ok
      ((monthRange lo hi).map (fun m => ⟨m, some (sumAt df (32 * m + 1)), none⟩), []) := by
  unfold generate_forecast
  rw [fitHW_ok hday hlo hhi hbound hcontig hlen, except_bind_ok]
  rw [monthly_data_fst hday hlo hhi hbound hcontig]
  rw [getLast?_monthRange (by omega)]
  simp only [project]
  rw [months_needed_monthStart]
  rw [if_pos (by omega)]
  rw [monthly_data_eq_contig hday hlo hhi hbound hcontig, List.map_map]
  rfl

/-! Lemmas about the data engine. -/

theorem except_bind_error {α β : Type} (e : String) (f : α → Except String β) :
    Except.bind (Except.error e) f = Except.error e := rfl

theorem parseDates_ok {rows : List RawRow} (h : ∀ r ∈ rows, r.date ≠ none) :
    ∃ dated, parseDates rows = Except.ok dated ∧
      (∀ x ∈ dated, x.year = x.date.year) ∧
      (∀ r ∈ rows, ∀ d, r.date = some d →
        (⟨d, d.year, r.country, r.arrivals⟩ : DatedRow) ∈ dated) := by
  induction rows with
  | nil => exact ⟨[], rfl, by simp, by simp⟩
  | cons r rs ih =>
    have hr := h r (List.mem_cons_self r rs)
    obtain ⟨d, hd⟩ : ∃ d, r.date = some d := by
      cases hrd : r.date with
      | none => exact absurd hrd hr
      | some d => exact ⟨d, rfl⟩
    obtain ⟨dated, hok, hyear, hmem⟩ := ih (fun x hx => h x (List.mem_cons.mpr (Or.inr hx)))
    refine ⟨⟨d, d.year, r.country, r.arrivals⟩ :: dated, ?_, ?_, ?_⟩
    · unfold parseDates
      rw [hd, hok]
    · intro x hx
      rcases List.mem_cons.mp hx with rfl | hx
      · rfl
      · exact hyear x hx
    · intro r2 hr2 d2 hd2
      rcases List.mem_cons.mp hr2 with rfl | hr2
      · rw [hd] at hd2
        injection hd2 with hdd
        subst hdd
        exact List.mem_cons_self _ _
      · exact List.mem_cons.mpr (Or.inr (hmem r2 hr2 d2 hd2))

theorem parseDates_error {rows : List RawRow} (h : ∃ r ∈ rows, r.date = none) :
    parseDates rows = Except.error "unparseable date" := by
  induction rows with
  | nil =>
    obtain ⟨r, hr, _⟩ := h
    cases hr
  | cons r rs ih =>
    cases hrd : r.date with
    | none =>
      unfold parseDates
      rw [hrd]
    | some d =>
      obtain ⟨r2, hr2, hnone⟩ := h
      have h2 : ∃ x ∈ rs, x.date = none := by
        rcases List.mem_cons.mp hr2 with rfl | h3
        · rw [hrd] at hnone
          cases hnone
        · exact ⟨r2, h3, hnone⟩
      unfold parseDates
      rw [hrd, ih h2]

/-! Lemmas about association-list lookups. -/

theorem find?_pair_of_mem {α : Type} {l : List (String × α)}
    (hnd : (l.map Prod.fst).Nodup) {c : String} {v : α} (hm : (c, v) ∈ l) :
    l.find? (fun p => p.1 = c) = some (c, v) := by
  induction l with
  | nil => cases hm
  | cons p ps ih =>
    rw [List.map_cons, List.nodup_cons] at hnd
    rcases List.mem_cons.mp hm with rfl | hm2
    · rw [List.find?_cons_of_pos _ (by simp)]
    · have hne : p.1 ≠ c := by
        intro hcontra
        exact hnd.1 (hcontra ▸ List.mem_map.mpr ⟨(c, v), hm2, rfl⟩)
      rw [List.find?_cons_of_neg _ (by simp [hne]), ih hnd.2 hm2]

theorem find?_none_of_not_mem {α : Type} {l : List (String × α)} {c : String}
    (h : c ∉ l.map Prod.fst) : l.find? (fun p => p.1 = c) = none := by
  rw [List.find?_eq_none]
  intro p hp
  simp only [decide_eq_true_eq]
  intro hq
  exact h (List.mem_map.mpr ⟨p, hp, hq⟩)

theorem iso_keys_nodup : (ISO_MAP.map Prod.fst).Nodup := by decide

theorem proxy_keys_nodup : (RELIGION_PROXY.map Prod.fst).Nodup := by decide

/-! Concrete tables used as test inputs. -/

/-- 24 contiguous monthly observations, January 2023 to December 2024
(absolute months 24276 to 24299), value 1 each. -/
def dfA : List (Date × Rat) := (List.range 24).map (fun i => (monthStart (24276 + i), 1))

/-- 24 contiguous monthly observations, January 2025 to December 2026
(absolute months 24300 to 24323), value 1 each: a history that already
reaches the December 2026 horizon. -/
def dfDec26 : List (Date × Rat) := (List.range 24).map (fun i => (monthStart (24300 + i), 1))

/-- The history table generate_forecast returns for dfDec26. -/
def histDec26 : List OutRow :=
  (monthRange 24300 24323).map (fun m => ⟨m, some (sumAt dfDec26 (32 * m + 1)), none⟩)

/-- A single-observation table (March 2017, value 5): a pathological series
for the seasonal fit. -/
def df1 : List (Date × Rat) := [(monthStart 24206, 5)]

/-- A table with two January 2019 rows on different days of the month and one
March 2019 row: January has rows on day 1 and day 15, February is absent. -/
def df3 : List (Date × Rat) :=
  [(⟨24228, 1, by omega⟩, 5), (⟨24228, 15, by omega⟩, 7), (⟨24230, 1, by omega⟩, 3)]

/-! Claim theorems. -/

/-- C4: for every failure of data retrieval or parsing, load_gov_data does not
propagate the exception: it reports the failure through the st.error side
channel and returns an empty table.  The first conjunct covers retrieval
failures, the second parse failures; in both cases the result is a diagnostic
message paired with the empty table, and load_gov_data is a total function, so
no exception reaches the caller. -/
theorem claim_C4 :
    (∀ e, load_gov_data (Except.error e) = (["Data Error: " ++ e], []))
    ∧ (∀ rows : List RawRow, (∃ r ∈ rows, r.date = none) →
        load_gov_data (Except.ok rows) = (["Data Error: " ++ "unparseable date"], [])) := by
  constructor
  · intro e
    rfl
  · intro rows h
    unfold load_gov_data loadBody
    rw [except_bind_ok, parseDates_error h]
    rfl

/-- C4 witness: a retrieval failure and a parse failure, both recovered as a
diagnostic plus an empty table. -/
theorem claim_C4_witness :
    load_gov_data (Except.error "network unreachable") =
      (["Data Error: " ++ "network unreachable"], [])
    ∧ ((∃ r ∈ [(⟨none, "SGP", 3⟩ : RawRow)], r.date = none)
        ∧ load_gov_data (Except.ok [(⟨none, "SGP", 3⟩ : RawRow)]) =
          (["Data Error: " ++ "unparseable date"], [])) :=
  ⟨claim_C4.1 "network unreachable",
   ⟨⟨⟨none, "SGP", 3⟩, by decide, rfl⟩,
    claim_C4.2 [⟨none, "SGP", 3⟩] ⟨⟨none, "SGP", 3⟩, by decide, rfl⟩⟩⟩

/-- C5 (amended): generate_forecast contains no exception handling around the
model fit: whenever the fit raises, the exception propagates unchanged out of
generate_forecast to its caller, instead of being caught and surfaced as a
forecast-unavailable condition. -/
theorem claim_C5 (fit : HWConfig → List (Nat × Option Rat) → Except String Model)
    (df : List (Date × Rat)) (e : String)
    (hfit : fit hwConfig (monthly_data df) = Except.error e) :
    generate_forecast fit df = Except.error e := by
  unfold generate_forecast
  rw [hfit]
  rfl

/-- The modelled statsmodels fit fails on the single-point series of df1. -/
theorem fitHW_df1 :
    fitHW hwConfig (monthly_data df1) = Except.error "needs two full seasonal cycles" := by
  have h : monthly_data df1 = [(24206, some (sumAt df1 (32 * 24206 + 1)))] := by
    have hh : (groupbySum df1).head? = some (monthStart 24206, sumAt df1 (32 * 24206 + 1)) :=
      @groupbySum_head? df1 24206 24206 (by decide) (by decide) (by decide)
    have hl : (groupbySum df1).getLast? = some (monthStart 24206, sumAt df1 (32 * 24206 + 1)) :=
      @groupbySum_getLast? df1 24206 24206 (by decide) (by decide) (by decide)
    rw [monthly_data, asfreqMS_eq_of_head_last hh hl]
    have hgrid : asfreqGrid (monthStart 24206, sumAt df1 (32 * 24206 + 1)).1
        (monthStart 24206, sumAt df1 (32 * 24206 + 1)).1 = [24206] := by decide
    rw [hgrid]
    rw [List.map_singleton, groupbySum_find?]
    have hk : 32 * 24206 + 1 ∈ sortedKeys (keyList df1) := by decide
    rw [if_pos hk]
    rfl
  rw [h]
  rfl

/-- C5 counterexample: on a single-point series — one of the pathological
inputs named by the claim — the fit raises and generate_forecast propagates
the exception to its caller as an error result, rather than catching it at
the fit boundary and reporting a forecast-unavailable condition. -/
theorem claim_C5_counterexample :
    generate_forecast fitHW df1 = Except.error "needs two full seasonal cycles" := by
  unfold generate_forecast
  rw [fitHW_df1]
  rfl

/-- C5 witness: the propagation theorem applied to the concrete failing fit on
df1. -/
theorem claim_C5_witness :
    fitHW hwConfig (monthly_data df1) = Except.error "needs two full seasonal cycles"
    ∧ generate_forecast fitHW df1 = Except.error "needs two full seasonal cycles" :=
  ⟨fitHW_df1, claim_C5 fitHW df1 "needs two full seasonal cycles" fitHW_df1⟩

/-- C6: generate_forecast fits a seasonal-trend exponential-smoothing model
with additive trend, additive seasonality, seasonal period 12, damping
enabled and fixed smoothing coefficients 0.3 (level) and 0.1 (trend): the
configuration it hands the fit routine is exactly hwConfig, and the final
conjunct shows it consults the fit routine at no other configuration. -/
theorem claim_C6 :
    hwConfig.trend = "add" ∧ hwConfig.damped_trend = true ∧ hwConfig.seasonal = "add"
    ∧ hwConfig.seasonal_periods = 12
    ∧ hwConfig.smoothing_level = 3/10 ∧ hwConfig.smoothing_trend = 1/10
    ∧ (∀ fit1 fit2 : HWConfig → List (Nat × Option Rat) → Except String Model,
        ∀ df : List (Date × Rat), fit1 hwConfig = fit2 hwConfig →
          generate_forecast fit1 df = generate_forecast fit2 df) := by
  refine ⟨rfl, rfl, rfl, rfl, rfl, rfl, ?_⟩
  intro fit1 fit2 df h
  unfold generate_forecast
  rw [h]

/-- C6 witness: two fit routines agreeing at hwConfig produce identical
forecasts. -/
theorem claim_C6_witness :
    (fitHW hwConfig = (fun _ s => fitHW hwConfig s) hwConfig)
    ∧ generate_forecast fitHW df1 = generate_forecast (fun _ s => fitHW hwConfig s) df1 :=
  ⟨rfl, claim_C6.2.2.2.2.2.2 fitHW (fun _ s => fitHW hwConfig s) df1 rfl⟩

/-- C8: mapping a country code through ISO_MAP with fillna yields the display
name for every code that is a key of the map, and leaves every other code
unchanged — never an error. -/
theorem claim_C8 :
    (∀ c n : String, (c, n) ∈ ISO_MAP → displayName c = n)
    ∧ (∀ c : String, c ∉ ISO_MAP.map Prod.fst → displayName c = c) := by
  constructor
  · intro c n hm
    unfold displayName
    rw [find?_pair_of_mem iso_keys_nodup hm]
  · intro c hc
    unfold displayName
    rw [find?_none_of_not_mem hc]

/-- C8 witness: SGP maps to Singapore; the unknown code ZZZ maps to itself. -/
theorem claim_C8_witness :
    ((("SGP", "Singapore") ∈ ISO_MAP) ∧ displayName "SGP" = "Singapore")
    ∧ (("ZZZ" ∉ ISO_MAP.map Prod.fst) ∧ displayName "ZZZ" = "ZZZ") :=
  ⟨⟨by decide, claim_C8.1 "SGP" "Singapore" (by decide)⟩,
   ⟨by decide, claim_C8.2 "ZZZ" (by decide)⟩⟩

/-- C9: on successful retrieval and parsing, load_gov_data returns, with no
diagnostics, a table in which every row with a year below 2019 has been
discarded (and no other row has been discarded), every row carries the year
derived from its valid parsed date, and every row carries the display name
derived from its country code; the columns date, year, country, Country_Name
and arrivals are the fields of CleanRow. -/
theorem claim_C9 (rows : List RawRow) (h : ∀ r ∈ rows, r.date ≠ none) :
    ∃ t, load_gov_data (Except.ok rows) = ([], t)
      ∧ (∀ r ∈ t, 2019 ≤ r.year)
      ∧ (∀ r ∈ t, r.year = r.date.year)
      ∧ (∀ r ∈ t, r.countryName = displayName r.country)
      ∧ (∀ raw ∈ rows, ∀ d, raw.date = some d → 2019 ≤ d.year →
          ∃ r ∈ t, r.date = d ∧ r.country = raw.country ∧ r.arrivals = raw.arrivals) := by
  obtain ⟨dated, hok, hyear, hmem⟩ := parseDates_ok h
  refine ⟨(dated.filter (fun r => 2019 ≤ r.year)).map
    (fun r => ⟨r.date, r.year, r.country, displayName r.country, r.arrivals⟩),
    ?_, ?_, ?_, ?_, ?_⟩
  · unfold load_gov_data loadBody
    rw [except_bind_ok, hok, except_bind_ok]
  · intro r hr
    obtain ⟨x, hx, rfl⟩ := List.mem_map.mp hr
    have := (List.mem_filter.mp hx).2
    simpa using this
  · intro r hr
    obtain ⟨x, hx, rfl⟩ := List.mem_map.mp hr
    exact hyear x (List.mem_filter.mp hx).1
  · intro r hr
    obtain ⟨x, hx, rfl⟩ := List.mem_map.mp hr
    rfl
  · intro raw hraw d hd hy
    refine ⟨⟨d, d.year, raw.country, displayName raw.country, raw.arrivals⟩, ?_, rfl, rfl, rfl⟩
    refine List.mem_map.mpr ⟨⟨d, d.year, raw.country, raw.arrivals⟩, ?_, rfl⟩
    refine List.mem_filter.mpr ⟨hmem raw hraw d hd, ?_⟩
    simpa using hy

/-- C9 witness: a two-row fetch in which the 2020 row survives with derived
fields and the 2018 row is discarded. -/
theorem claim_C9_witness :
    (∀ r ∈ [(⟨some (monthStart 24240), "SGP", 10⟩ : RawRow),
            (⟨some (monthStart 24216), "IDN", 7⟩ : RawRow)], r.date ≠ none)
    ∧ ∃ t, load_gov_data (Except.ok
        [(⟨some (monthStart 24240), "SGP", 10⟩ : RawRow),
         (⟨some (monthStart 24216), "IDN", 7⟩ : RawRow)]) = ([], t)
      ∧ (∀ r ∈ t, 2019 ≤ r.year)
      ∧ (∀ r ∈ t, r.year = r.date.year)
      ∧ (∀ r ∈ t, r.countryName = displayName r.country)
      ∧ (∀ raw ∈ [(⟨some (monthStart 24240), "SGP", 10⟩ : RawRow),
                  (⟨some (monthStart 24216), "IDN", 7⟩ : RawRow)],
          ∀ d, raw.date = some d → 2019 ≤ d.year →
          ∃ r ∈ t, r.date = d ∧ r.country = raw.country ∧ r.arrivals = raw.arrivals) :=
  ⟨by decide, claim_C9 _ (by decide)⟩

/-- C10: the two return paths of generate_forecast produce different schemas:
when the horizon is already reached (months_needed not positive) every
returned history row has no Type column at all (and the forecast is empty),
whereas on the forecasting path every history row carries the label
Actual. -/
theorem claim_C10 {df : List (Date × Rat)} {hist fc : List OutRow} {lastM : Nat}
    (hok : generate_forecast fitHW df = Except.ok (hist, fc))
    (hlast : ((monthly_data df).map Prod.fst).getLast? = some lastM) :
    (months_needed (monthStart lastM) ≤ 0 → (∀ r ∈ hist, r.type = none) ∧ fc = [])
    ∧ (0 < months_needed (monthStart lastM) → ∀ r ∈ hist, r.type = some "Actual") := by
  unfold generate_forecast at hok
  cases hfit : fitHW hwConfig (monthly_data df) with
  | error e =>
    rw [hfit, except_bind_error] at hok
    cases hok
  | ok model =>
    rw [hfit, except_bind_ok, hlast] at hok
    simp only [project] at hok
    by_cases hn : months_needed (monthStart lastM) ≤ 0
    · rw [if_pos hn] at hok
      rw [Except.ok.injEq, Prod.mk.injEq] at hok
      obtain ⟨hhist, hfc⟩ := hok
      constructor
      · intro _
        refine ⟨?_, hfc.symm⟩
        intro r hr
        rw [← hhist] at hr
        obtain ⟨p, hp, rfl⟩ := List.mem_map.mp hr
        rfl
      · intro h0
        omega
    · rw [if_neg hn] at hok
      rw [Except.ok.injEq, Prod.mk.injEq] at hok
      obtain ⟨hhist, hfc⟩ := hok
      constructor
      · intro h0
        omega
      · intro _ r hr
        rw [← hhist] at hr
        obtain ⟨p, hp, rfl⟩ := List.mem_map.mp hr
        rfl

/-- C10 witness: the horizon-reached path on dfDec26, whose history rows all
lack the Type column. -/
theorem claim_C10_witness :
    generate_forecast fitHW dfDec26 = Except.ok (histDec26, [])
    ∧ ((monthly_data dfDec26).map Prod.fst).getLast? = some 24323
    ∧ ((months_needed (monthStart 24323) ≤ 0 →
          (∀ r ∈ histDec26, r.type = none) ∧ ([] : List OutRow) = [])
        ∧ (0 < months_needed (monthStart 24323) → ∀ r ∈ histDec26, r.type = some "Actual")) := by
  have hok : generate_forecast fitHW dfDec26 = Except.ok (histDec26, []) := by
    unfold histDec26
    exact @generate_forecast_nonpos dfDec26 24300 24323 (by decide) (by decide) (by decide)
      (by decide) (by decide) (by decide) (by decide)
  have hlast : ((monthly_data dfDec26).map Prod.fst).getLast? = some 24323 := by
    rw [@monthly_data_fst dfDec26 24300 24323 (by decide) (by decide) (by decide)
      (by decide) (by decide)]
    exact getLast?_monthRange (by omega)
  exact ⟨hok, hlast, claim_C10 hok hlast⟩

/-- C1 (amended): for every cleaned, month-normalised table whose observed
months are contiguous, span at least 24 months, and end strictly before the
December 2026 horizon, generate_forecast succeeds and returns a history that
covers every observed month exactly once and a forecast that covers every
month strictly after the last observed month up to and including December
2026, with no gaps and no duplicates, the history rows all labelled Actual,
the forecast rows all labelled AI Forecast, and the two month sets
disjoint. -/
theorem claim_C1 {df : List (Date × Rat)} {lo hi : Nat}
    (hday : ∀ p ∈ df, p.1.day = 1)
    (hlo : lo ∈ observedMonths df) (hhi : hi ∈ observedMonths df)
    (hbound : ∀ m ∈ observedMonths df, lo ≤ m ∧ m ≤ hi)
    (hcontig : ∀ m ∈ monthRange lo hi, m ∈ observedMonths df)
    (hlen : lo + 23 ≤ hi) (hhor : hi < horizonMonth) :
    ∃ hist fc, generate_forecast fitHW df = Except.ok (hist, fc)
      ∧ hist.map OutRow.month = monthRange lo hi
      ∧ (∀ m, m ∈ hist.map OutRow.month ↔ m ∈ observedMonths df)
      ∧ (hist.map OutRow.month).Nodup
      ∧ fc.map OutRow.month = monthRange (hi + 1) horizonMonth
      ∧ (∀ m, m ∈ fc.map OutRow.month ↔ hi < m ∧ m ≤ horizonMonth)
      ∧ (fc.map OutRow.month).Nodup
      ∧ (∀ r ∈ hist, r.type = some "Actual")
      ∧ (∀ r ∈ fc, r.type = some "AI Forecast")
      ∧ (∀ m, ¬ (m ∈ hist.map OutRow.month ∧ m ∈ fc.map OutRow.month)) := by
  refine ⟨_, _, generate_forecast_pos hday hlo hhi hbound hcontig hlen hhor, ?_⟩
  have hh : ((monthRange lo hi).map
      (fun m => (⟨m, some (sumAt df (32 * m + 1)), some "Actual"⟩ : OutRow))).map
        OutRow.month = monthRange lo hi := by
    rw [List.map_map]
    exact List.map_id _
  have hf : ((monthRange (hi + 1) horizonMonth).map
      (fun m => (⟨m, some 0, some "AI Forecast"⟩ : OutRow))).map OutRow.month
        = monthRange (hi + 1) horizonMonth := by
    rw [List.map_map]
    exact List.map_id _
  refine ⟨hh, ?_, ?_, hf, ?_, ?_, ?_, ?_, ?_⟩
  · intro m
    rw [hh]
    constructor
    · exact hcontig m
    · intro hm
      exact mem_monthRange.mpr (hbound m hm)
  · rw [hh]
    exact nodup_monthRange lo hi
  · intro m
    rw [hf, mem_monthRange]
    omega
  · rw [hf]
    exact nodup_monthRange (hi + 1) horizonMonth
  · intro r hr
    obtain ⟨m, hm, rfl⟩ := List.mem_map.mp hr
    rfl
  · intro r hr
    obtain ⟨m, hm, rfl⟩ := List.mem_map.mp hr
    rfl
  · intro m hm
    rw [hh, mem_monthRange] at hm
    rw [hf, mem_monthRange] at hm
    omega

/-- C1 counterexample: dfDec26 is a cleaned table with 24 months of history,
yet the value generate_forecast returns for it carries no label at all — every
history row has type none, so grouping the concatenated output by the label
column does not reproduce the history as a labelled set, contradicting the
claim as stated (its universal quantification includes tables whose history
already reaches the horizon). -/
theorem claim_C1_counterexample :
    generate_forecast fitHW dfDec26 = Except.ok (histDec26, [])
    ∧ histDec26.all (fun r => r.type == none) = true := by
  constructor
  · unfold histDec26
    exact @generate_forecast_nonpos dfDec26 24300 24323 (by decide) (by decide) (by decide)
      (by decide) (by decide) (by decide) (by decide)
  · rw [List.all_eq_true]
    intro r hr
    obtain ⟨m, hm, rfl⟩ := List.mem_map.mp hr
    rfl

/-- C1 witness: the amended forecast-coverage theorem applied to a 24-month
table spanning 2023 and 2024. -/
theorem claim_C1_witness :
    ((∀ p ∈ dfA, p.1.day = 1) ∧ 24276 ∈ observedMonths dfA ∧ 24299 ∈ observedMonths dfA
      ∧ (∀ m ∈ observedMonths dfA, 24276 ≤ m ∧ m ≤ 24299)
      ∧ (∀ m ∈ monthRange 24276 24299, m ∈ observedMonths dfA)
      ∧ 24276 + 23 ≤ 24299 ∧ 24299 < horizonMonth)
    ∧ (∃ hist fc, generate_forecast fitHW dfA = Except.ok (hist, fc)
      ∧ hist.map OutRow.month = monthRange 24276 24299
      ∧ (∀ m, m ∈ hist.map OutRow.month ↔ m ∈ observedMonths dfA)
      ∧ (hist.map OutRow.month).Nodup
      ∧ fc.map OutRow.month = monthRange (24299 + 1) horizonMonth
      ∧ (∀ m, m ∈ fc.map OutRow.month ↔ 24299 < m ∧ m ≤ horizonMonth)
      ∧ (fc.map OutRow.month).Nodup
      ∧ (∀ r ∈ hist, r.type = some "Actual")
      ∧ (∀ r ∈ fc, r.type = some "AI Forecast")
      ∧ (∀ m, ¬ (m ∈ hist.map OutRow.month ∧ m ∈ fc.map OutRow.month))) :=
  ⟨⟨by decide, by decide, by decide, by decide, by decide, by decide, by decide⟩,
   @claim_C1 dfA 24276 24299 (by decide) (by decide) (by decide) (by decide)
     (by decide) (by decide) (by decide)⟩

/-- C2: months_needed is computed by the year-and-month formula of line 74 —
which equals the exact count of months separating the last observed month
from the December 2026 horizon — and whenever it is not positive
generate_forecast performs no forecasting: it returns the full history (one
row per month of the aggregated series, covering exactly the observed months)
together with an empty forecast table, as an ordinary Except.ok value, not an
error. -/
theorem claim_C2 {df : List (Date × Rat)} {lo hi : Nat}
    (hday : ∀ p ∈ df, p.1.day = 1)
    (hlo : lo ∈ observedMonths df) (hhi : hi ∈ observedMonths df)
    (hbound : ∀ m ∈ observedMonths df, lo ≤ m ∧ m ≤ hi)
    (hcontig : ∀ m ∈ monthRange lo hi, m ∈ observedMonths df)
    (hlen : lo + 23 ≤ hi) (hhor : horizonMonth ≤ hi) :
    (∀ d : Date, months_needed d = (horizonMonth : Int) - (d.month : Int))
    ∧ months_needed (monthStart hi) ≤ 0
    ∧ generate_forecast fitHW df = Except.ok
        ((monthRange lo hi).map (fun m => ⟨m, some (sumAt df (32 * m + 1)), none⟩), [])
    ∧ (∀ m, m ∈ monthRange lo hi ↔ m ∈ observedMonths df) := by
  refine ⟨?_, ?_, generate_forecast_nonpos hday hlo hhi hbound hcontig hlen hhor, ?_⟩
  · intro d
    unfold months_needed target_date Date.year Date.monthOfYear horizonMonth
    dsimp only
    omega
  · rw [months_needed_monthStart]
    omega
  · intro m
    constructor
    · exact hcontig m
    · intro hm
      exact mem_monthRange.mpr (hbound m hm)

/-- C2 witness: the horizon-reached theorem applied to a 24-month history
ending exactly at December 2026. -/
theorem claim_C2_witness :
    ((∀ p ∈ dfDec26, p.1.day = 1) ∧ 24300 ∈ observedMonths dfDec26
      ∧ 24323 ∈ observedMonths dfDec26
      ∧ (∀ m ∈ observedMonths dfDec26, 24300 ≤ m ∧ m ≤ 24323)
      ∧ (∀ m ∈ monthRange 24300 24323, m ∈ observedMonths dfDec26)
      ∧ 24300 + 23 ≤ 24323 ∧ horizonMonth ≤ 24323)
    ∧ ((∀ d : Date, months_needed d = (horizonMonth : Int) - (d.month : Int))
      ∧ months_needed (monthStart 24323) ≤ 0
      ∧ generate_forecast fitHW dfDec26 = Except.ok
          ((monthRange 24300 24323).map
            (fun m => ⟨m, some (sumAt dfDec26 (32 * m + 1)), none⟩), [])
      ∧ (∀ m, m ∈ monthRange 24300 24323 ↔ m ∈ observedMonths dfDec26)) :=
  ⟨⟨by decide, by decide, by decide, by decide, by decide, by decide, by decide⟩,
   @claim_C2 dfDec26 24300 24323 (by decide) (by decide) (by decide) (by decide)
     (by decide) (by decide) (by decide)⟩

/-! Claim C3: aggregation semantics. -/

theorem asfreqMS_cases (s : List (Date × Rat)) :
    asfreqMS s = [] ∨ ∃ f l, s.head? = some f ∧ s.getLast? = some l ∧
      asfreqMS s = (asfreqGrid f.1 l.1).map
        (fun m => (m, (s.find? (fun p => p.1 = monthStart m)).map Prod.snd)) := by
  cases hh : s.head? with
  | none =>
    left
    unfold asfreqMS
    rw [hh]
  | some f =>
    cases hl : s.getLast? with
    | none =>
      left
      unfold asfreqMS
      rw [hh, hl]
    | some l =>
      right
      exact ⟨f, l, rfl, rfl, asfreqMS_eq_of_head_last hh hl⟩

theorem key_mem_iff_date_mem (df : List (Date × Rat)) (m : Nat) :
    32 * m + 1 ∈ keyList df ↔ monthStart m ∈ df.map Prod.fst := by
  rw [mem_keyList]
  constructor
  · rintro ⟨p, hp, hk⟩
    have hpm : p.1 = monthStart m := dateKey_inj (hk.trans (dateKey_monthStart m).symm)
    exact List.mem_map.mpr ⟨p, hp, hpm⟩
  · intro hmm
    obtain ⟨p, hp, hpm⟩ := List.mem_map.mp hmm
    exact ⟨p, hp, by rw [hpm, dateKey_monthStart]⟩

theorem sumAt_eq_filter_date (df : List (Date × Rat)) (m : Nat) :
    sumAt df (32 * m + 1) = ((df.filter (fun p => p.1 = monthStart m)).map Prod.snd).sum := by
  unfold sumAt
  have hfil : df.filter (fun p => decide (dateKey p.1 = 32 * m + 1)) =
      df.filter (fun p => decide (p.1 = monthStart m)) := by
    apply List.filter_congr
    intro p _
    apply decide_eq_decide.mpr
    constructor
    · intro h
      exact dateKey_inj (h.trans (dateKey_monthStart m).symm)
    · intro h
      rw [h, dateKey_monthStart]
  rw [hfil]

/-- C3 (amended): in the aggregation step, rows are grouped by their exact
date values, not by calendar month, and the grouped series is reindexed at
month-start frequency between its first and last index entry: the resulting
monthly series is evenly spaced (its months are one consecutive run), an
entry for month m carries the sum of exactly the rows dated precisely at the
month-start of m when such rows exist, and is a missing (NaN) entry
otherwise — no zero-fill or forward-fill is applied before the model fit, and
rows dated inside a month but not at its first day are not merged into the
month. -/
theorem claim_C3 (df : List (Date × Rat)) :
    (∀ m v, (m, v) ∈ monthly_data df →
      v = if monthStart m ∈ df.map Prod.fst
        then some (((df.filter (fun p => p.1 = monthStart m)).map Prod.snd).sum)
        else none)
    ∧ (monthly_data df = [] ∨ ∃ a b, (monthly_data df).map Prod.fst = monthRange a b) := by
  constructor
  · intro m v hmem
    rcases asfreqMS_cases (groupbySum df) with hnil | ⟨f, l, hh, hl, heq⟩
    · unfold monthly_data at hmem
      rw [hnil] at hmem
      cases hmem
    · unfold monthly_data at hmem
      rw [heq] at hmem
      obtain ⟨m2, hm2, hpair⟩ := List.mem_map.mp hmem
      rw [Prod.mk.injEq] at hpair
      obtain ⟨heqm, hv⟩ := hpair
      rw [← hv, ← heqm, groupbySum_find?]
      have hiff : (32 * m2 + 1 ∈ sortedKeys (keyList df)) ↔ monthStart m2 ∈ df.map Prod.fst := by
        rw [mem_sortedKeys]
        exact key_mem_iff_date_mem df m2
      by_cases hc : monthStart m2 ∈ df.map Prod.fst
      · rw [if_pos (hiff.mpr hc), if_pos hc]
        simp [sumAt_eq_filter_date]
      · rw [if_neg (fun hx => hc (hiff.mp hx)), if_neg hc]
        rfl
  · rcases asfreqMS_cases (groupbySum df) with hnil | ⟨f, l, hh, hl, heq⟩
    · left
      unfold monthly_data
      exact hnil
    · right
      refine ⟨if f.1.day = 1 then f.1.month else f.1.month + 1, l.1.month, ?_⟩
      unfold monthly_data
      rw [heq]
      unfold asfreqGrid
      rw [List.map_map]
      exact List.map_id _

/-- Modelled from the spec: the aggregation the claim describes — group the
rows by calendar month (truncating each date to its month) and sum the value
column within the month. -/
def monthTruncSum (df : List (Date × Rat)) (m : Nat) : Rat :=
  ((df.filter (fun p => p.1.month = m)).map Prod.snd).sum

/-- The monthly series of df3, computed: the January sum is 5, not the 12 a
month-truncated grouping would give, and February is a missing entry, not a
filled one. -/
theorem monthly_data_df3 :
    monthly_data df3 = [(24228, some 5), (24229, none), (24230, some 3)] := by
  have hg : groupbySum df3 =
      [(⟨24228, 1, by omega⟩, sumAt df3 775297), (⟨24228, 15, by omega⟩, sumAt df3 775311),
       (⟨24230, 1, by omega⟩, sumAt df3 775361)] := by
    unfold groupbySum keyList df3 sortedKeys
    norm_num [insortKey, dateKey, keyDate, Date.eq_iff]
  have h5 : sumAt df3 775297 = 5 := by
    unfold sumAt df3 dateKey
    norm_num
  have h3 : sumAt df3 775361 = 3 := by
    unfold sumAt df3 dateKey
    norm_num
  unfold monthly_data
  rw [asfreqMS_eq_of_head_last (f := (⟨24228, 1, by omega⟩, sumAt df3 775297))
    (l := (⟨24230, 1, by omega⟩, sumAt df3 775361)) (by rw [hg]; rfl) (by rw [hg]; rfl)]
  rw [hg]
  have hgrid : asfreqGrid (⟨24228, 1, by omega⟩ : Date) (⟨24230, 1, by omega⟩ : Date) =
      [24228, 24229, 24230] := by decide
  rw [hgrid]
  rw [List.map_cons, List.map_cons, List.map_cons, List.map_nil]
  rw [List.find?_cons_of_pos _ (by simp [monthStart, Date.eq_iff])]
  rw [List.find?_cons_of_neg _ (by simp [monthStart, Date.eq_iff]),
    List.find?_cons_of_neg _ (by simp [monthStart, Date.eq_iff]),
    List.find?_cons_of_neg _ (by simp [monthStart, Date.eq_iff])]
  rw [List.find?_cons_of_neg _ (by simp [monthStart, Date.eq_iff]),
    List.find?_cons_of_neg _ (by simp [monthStart, Date.eq_iff]),
    List.find?_cons_of_pos _ (by simp [monthStart, Date.eq_iff])]
  rw [h5, h3]
  rfl

/-- C3 counterexample: on df3 the claim fails three ways at once — the
January 2019 entry of the monthly series is 5 (the sum over rows dated
exactly at the month start), not the month-truncated group sum 12; the
interior month February 2019 is not filled but missing; hence the series
passed to the model fit is not complete. -/
theorem claim_C3_counterexample :
    monthly_data df3 = [(24228, some 5), (24229, none), (24230, some 3)]
    ∧ monthTruncSum df3 24228 = 12
    ∧ ([(24228, some (5 : Rat)), (24229, none), (24230, some 3)].any
        (fun p => p.2.isNone)) = true := by
  refine ⟨monthly_data_df3, ?_, by decide⟩
  unfold monthTruncSum df3
  norm_num

/-- C3 witness: the amended aggregation theorem applied to df3 at the missing
February entry. -/
theorem claim_C3_witness :
    ((24229, (none : Option Rat)) ∈ monthly_data df3)
    ∧ ((none : Option Rat) = if monthStart 24229 ∈ df3.map Prod.fst
        then some (((df3.filter (fun p => p.1 = monthStart 24229)).map Prod.snd).sum)
        else none) := by
  have hmem : ((24229, (none : Option Rat)) ∈ monthly_data df3) := by
    rw [monthly_data_df3]
    exact List.mem_cons.mpr (Or.inr (List.mem_cons_self _ _))
  exact ⟨hmem, (claim_C3 df3).1 24229 none hmem⟩

/-! Claim C7: segment estimation. -/

/-- C7 (amended): for the demographics table the estimate is exactly as
claimed — arrivals times the weight found by looking the display name up in
RELIGION_PROXY, defaulting to 0.05, truncated to an integer (Indonesia gives
0.87, an absent name gives 0.05, 10 arrivals at 0.87 give 8).  The
forecast-input table instead chains the raw code through ISO_MAP and then
RELIGION_PROXY with default 0.05, which agrees with the display-name lookup
for every code in ISO_MAP and for every country value absent from
RELIGION_PROXY, but not for an unmapped country value that is itself a
RELIGION_PROXY key. -/
theorem claim_C7 :
    muslim_ratio_main "Indonesia" = 87/100
    ∧ (∀ n : String, n ∉ RELIGION_PROXY.map Prod.fst → muslim_ratio_main n = 5/100)
    ∧ muslim_est_main 10 "Indonesia" = 8
    ∧ (∀ a : Rat, ∀ c : String, muslim_est_main a (displayName c) = specSegmentEst a c)
    ∧ (∀ c : String, c ∈ ISO_MAP.map Prod.fst →
        muslim_ratio_forecast c = muslim_ratio_main (displayName c))
    ∧ (∀ c : String, c ∉ RELIGION_PROXY.map Prod.fst →
        muslim_ratio_forecast c = muslim_ratio_main (displayName c)) := by
  refine ⟨rfl, ?_, ?_, fun a c => rfl, ?_, ?_⟩
  · intro n h
    unfold muslim_ratio_main
    rw [find?_none_of_not_mem h]
  · show astypeInt (10 * muslim_ratio_main "Indonesia") = 8
    have h : muslim_ratio_main "Indonesia" = 87/100 := rfl
    rw [h, show (10 * (87/100 : Rat)) = 87/10 by norm_num]
    unfold astypeInt
    rw [if_pos (by norm_num)]
    rw [Int.floor_eq_iff]
    constructor
    · norm_num
    · norm_num
  · intro c hc
    obtain ⟨⟨c1, v⟩, hp, hpc⟩ := List.mem_map.mp hc
    subst hpc
    unfold muslim_ratio_forecast displayName
    rw [find?_pair_of_mem iso_keys_nodup hp]
  · intro c hc
    unfold muslim_ratio_forecast displayName
    cases hfind : ISO_MAP.find? (fun q => q.1 = c) with
    | some p => rfl
    | none =>
      unfold muslim_ratio_main
      rw [find?_none_of_not_mem hc]

/-- C7 counterexample: for a row whose country value is the literal name
Turkey — absent from ISO_MAP but present in RELIGION_PROXY — the
forecast-input computation of lines 114-116 yields the default weight 0.05
and an estimate of 5 on 100 arrivals, whereas the display-name lookup the
claim describes yields 0.99 and 99: the claim is false of that code path. -/
theorem claim_C7_counterexample :
    muslim_ratio_forecast "Turkey" = 5/100
    ∧ muslim_ratio_main (displayName "Turkey") = 99/100
    ∧ muslim_est_forecast 100 "Turkey" = 5
    ∧ specSegmentEst 100 "Turkey" = 99 := by
  refine ⟨rfl, rfl, ?_, ?_⟩
  · show astypeInt (100 * muslim_ratio_forecast "Turkey") = 5
    have h : muslim_ratio_forecast "Turkey" = 5/100 := rfl
    rw [h, show (100 * (5/100 : Rat)) = 5 by norm_num]
    unfold astypeInt
    rw [if_pos (by norm_num)]
    rw [Int.floor_eq_iff]
    constructor
    · norm_num
    · norm_num
  · show astypeInt (100 * muslim_ratio_main (displayName "Turkey")) = 99
    have h : muslim_ratio_main (displayName "Turkey") = 99/100 := rfl
    rw [h, show (100 * (99/100 : Rat)) = 99 by norm_num]
    unfold astypeInt
    rw [if_pos (by norm_num)]
    rw [Int.floor_eq_iff]
    constructor
    · norm_num
    · norm_num

/-- C7 witness: the agreement conjuncts applied to the mapped code SGP and
to the unmapped-and-unweighted value ZZZ. -/
theorem claim_C7_witness :
    ("SGP" ∈ ISO_MAP.map Prod.fst
      ∧ muslim_ratio_forecast "SGP" = muslim_ratio_main (displayName "SGP"))
    ∧ ("ZZZ" ∉ RELIGION_PROXY.map Prod.fst
      ∧ muslim_ratio_forecast "ZZZ" = muslim_ratio_main (displayName "ZZZ")) :=
  ⟨⟨by decide, claim_C7.2.2.2.2.1 "SGP" (by decide)⟩,
   ⟨by decide, claim_C7.2.2.2.2.2 "ZZZ" (by decide)⟩⟩

end ITCReport
